import Mathlib

/-
Verification of the deck readiness and image-cache subsystem of the
paws-app repository (src/src/App.tsx), as a shallow embedding.

The React component state is modelled as an explicit record; each effect,
callback and asynchronous resumption in App.tsx becomes a pure transition
function on that record.  The cooperative single-threaded scheduling model
means every synchronous block of the source is one atomic transition; the
awaits inside a fetch job split it into a launch phase (the synchronous
part of the async arrow function, up to the first await) and a finish
phase (the resumption after the fetch settles).  The per-effect
"cancelled" flag of App.tsx is modelled by a pass generation number: the
effect run that started a pass captured generation g, and the flag reads
true exactly when g differs from the current generation.
-/

namespace Paws

/-- Cards as in App.tsx: an identifier and a fetchable source locator. -/
structure Card where
  id : String
  url : String
deriving DecidableEq, Repr

/-- Swipe directions accepted by handleChoice. -/
inductive Direction where
  | left
  | right
deriving DecidableEq, Repr

/-- Outcome of one fetch awaited by a prefetch job: either the response was
ok and its blob was materialized into an object URL (success, carrying the
string URL.createObjectURL produced), or the fetch threw / the response was
not ok (failure). -/
inductive FetchResult where
  | success (objectUrl : String)
  | failure
deriving DecidableEq, Repr

/-- Constant TOTAL_CATS of App.tsx. -/
def TOTAL_CATS : Nat := 12

/-- Constant INITIAL_READY_COUNT of App.tsx. -/
def INITIAL_READY_COUNT : Nat := 3

/-- Lookup in an insertion-ordered string map, as JS Map.get. -/
def mapGet : List (String × String) → String → Option String
  | [], _ => none
  | (k, v) :: rest, key => if k = key then some v else mapGet rest key

/-- Membership test, as JS Map.has. -/
def mapHas (m : List (String × String)) (key : String) : Bool :=
  (mapGet m key).isSome

/-- Insertion-ordered update, as JS Map.set: an existing key keeps its
position and gets the new value, a new key is appended. -/
def mapSet : List (String × String) → String → String → List (String × String)
  | [], key, val => [(key, val)]
  | (k, v) :: rest, key, val =>
      if k = key then (key, val) :: rest else (k, v) :: mapSet rest key val

/-- Insertion-ordered set add, as JS Set.add. -/
def setAdd (s : List String) (x : String) : List String :=
  if x ∈ s then s else s ++ [x]

/-- Set removal, as JS Set.delete. -/
def setRemove (s : List String) (x : String) : List String :=
  s.filter (fun y => y ≠ x)

/-- generateDeck of App.tsx.  The session-scoped random deck identifier
(crypto.randomUUID or the time-and-random composite) is nondeterministic
input, so it is a parameter here. -/
def generateDeck (deckId : String) (count : Nat) : List Card :=
  (List.range count).map (fun index =>
    { id := deckId ++ "-" ++ toString index
      url := "https://cataas.com/cat?width=560&height=720&format=jpg&deck="
               ++ deckId ++ "-" ++ toString index })

/-- The component state of App.tsx.  cache is imagePoolRef.current,
inFlight is inFlightRef.current, pendingTimer is timeoutRef together with
the direction and card captured by the setTimeout closure, gen is the
number of prefetch-effect runs (the cancelled flag of a pass that captured
generation g reads true iff g differs from gen), and revoked is a ghost
log of every object URL passed to URL.revokeObjectURL, recording the
otherwise external release effect. -/
structure AppState where
  cats : List Card
  activeIndex : Nat
  liked : List Card
  swipeDirection : Option Direction
  dragX : Int
  isAnimating : Bool
  isDeckReady : Bool
  readyCount : Nat
  pendingTimer : Option (Direction × Card)
  cache : List (String × String)
  inFlight : List String
  gen : Nat
  revoked : List String
deriving DecidableEq, Repr

/-- releasePool of App.tsx: revoke every cached value that is an object
URL (value starting with blob:), then clear the cache map and the
in-flight set. -/
def releasePool (s : AppState) : AppState :=
  { s with
      revoked := s.revoked ++ (s.cache.map Prod.snd).filter (fun v => v.startsWith "blob:")
      cache := []
      inFlight := [] }

/-- currentCat of App.tsx: cats[activeIndex]. -/
def currentCat (s : AppState) : Option Card :=
  s.cats[s.activeIndex]?

/-- isComplete of App.tsx: activeIndex >= cats.length. -/
def isComplete (s : AppState) : Bool :=
  decide (s.activeIndex ≥ s.cats.length)

/-- handleChoice of App.tsx: guarded by the existence of a current card,
by isAnimating and by isDeckReady; on acceptance records the direction,
raises the animating flag, and arms the settle timer with the chosen card
(clearing any previous timer by overwriting it). -/
def handleChoice (d : Direction) (s : AppState) : AppState :=
  match currentCat s with
  | none => s
  | some c =>
      if s.isAnimating || !s.isDeckReady then s
      else
        { s with
            swipeDirection := some d
            isAnimating := true
            pendingTimer := some (d, c) }

/-- The setTimeout callback armed by handleChoice: advance activeIndex,
append to liked exactly when the direction was right, clear the direction,
reset dragX, drop the animating flag and disarm the timer, all in one
synchronous block. -/
def fireTimer (s : AppState) : AppState :=
  match s.pendingTimer with
  | none => s
  | some (d, c) =>
      { s with
          activeIndex := s.activeIndex + 1
          liked := if d = Direction.right then s.liked ++ [c] else s.liked
          swipeDirection := none
          dragX := 0
          isAnimating := false
          pendingTimer := none }

/-- resetDeck of App.tsx: clear the pending timer, release the pool,
install a freshly generated deck of TOTAL_CATS cards, and zero the
browsing and readiness state.  The deck identifier is the nondeterministic
input of the inner generateDeck call. -/
def resetDeck (deckId : String) (s : AppState) : AppState :=
  let s1 := releasePool { s with pendingTimer := none }
  { s1 with
      cats := generateDeck deckId TOTAL_CATS
      activeIndex := 0
      liked := []
      swipeDirection := none
      dragX := 0
      isAnimating := false
      isDeckReady := false
      readyCount := 0 }

/-- The hit test at the top of a fetch job in loadDeck: the guard
(!url || cache.has(url)) taken when the job body starts running. -/
def jobHit (cache : List (String × String)) (c : Card) : Bool :=
  c.url = "" || mapHas cache c.url

/-- Launch phase of one fetch job of loadDeck for the pass that captured
generation g: the synchronous part of the async arrow function up to the
first await.  A hit settles immediately (incrementing readyCount when the
pass is not cancelled); a miss adds the url to the in-flight set and
leaves the job awaiting its fetch. -/
def launchJob (g : Nat) (s : AppState) (c : Card) : AppState :=
  if jobHit s.cache c then
    if g = s.gen then { s with readyCount := s.readyCount + 1 } else s
  else
    { s with inFlight := setAdd s.inFlight c.url }

/-- Finish phase of one fetch job of loadDeck: the resumption after the
awaited fetch settles with result res.  On success the object URL is
cached, on failure the remote url itself is cached as fallback, both only
when the pass is not cancelled; the finally block removes the url from the
in-flight set unconditionally and increments readyCount when the pass is
not cancelled. -/
def finishJob (g : Nat) (s : AppState) (c : Card) (res : FetchResult) : AppState :=
  let cancelled := g ≠ s.gen
  let s1 :=
    match res with
    | FetchResult.success objectUrl =>
        if cancelled then s else { s with cache := mapSet s.cache c.url objectUrl }
    | FetchResult.failure =>
        if cancelled then s else { s with cache := mapSet s.cache c.url c.url }
  let s2 := { s1 with inFlight := setRemove s1.inFlight c.url }
  if cancelled then s2 else { s2 with readyCount := s2.readyCount + 1 }

/-- The continuation after Promise.all in loadDeck: mark the deck ready
when the pass is not cancelled. -/
def finishAll (g : Nat) (s : AppState) : AppState :=
  if g = s.gen then { s with isDeckReady := true } else s

/-- Launch phase of the whole pass: cats.map starts every job body
synchronously, in deck order. -/
def launchAll (g : Nat) (s : AppState) (cards : List Card) : AppState :=
  cards.foldl (launchJob g) s

/-- The prefetch effect body of App.tsx for the current cats value.  Its
run supersedes the previous pass (the cleanup closure sets the old
cancelled flag, modelled by the generation bump), zeroes readiness, and
either launches one job per card or, for an empty deck, marks the deck
ready at once. -/
def effectRun (s : AppState) : AppState :=
  let s1 := { s with gen := s.gen + 1, isDeckReady := false, readyCount := 0 }
  if s1.cats.length > 0 then launchAll s1.gen s1 s1.cats
  else { s1 with isDeckReady := true }

/-- The threshold effect of App.tsx: once readyCount has reached
min(INITIAL_READY_COUNT, cats.length) and that threshold is positive, mark
the deck ready. -/
def thresholdEffect (s : AppState) : AppState :=
  let threshold := min INITIAL_READY_COUNT s.cats.length
  if !s.isDeckReady && decide (0 < threshold) && decide (s.readyCount ≥ threshold)
  then { s with isDeckReady := true }
  else s

/-- Settling of the outstanding jobs of a pass, in the order the event
loop happens to resume them: a fold of finishJob over the settled
(card, result) pairs. -/
def settleAll (g : Nat) (s : AppState) (jobs : List (Card × FetchResult)) : AppState :=
  jobs.foldl (fun t p => finishJob g t p.1 p.2) s

/-- The cards of a deck whose job does not hit the cache at launch and
therefore stays pending on its fetch.  The launch phase never writes the
cache, so the hit test of every job reads the cache as it was when the
effect ran, independent of launch order. -/
def pendingCards (cache : List (String × String)) (cards : List Card) : List Card :=
  cards.filter (fun c => !jobHit cache c)

/-- The component state at mount: a fresh deck, empty browsing state, no
pass run yet. -/
def initState (deck : List Card) : AppState :=
  { cats := deck
    activeIndex := 0
    liked := []
    swipeDirection := none
    dragX := 0
    isAnimating := false
    isDeckReady := false
    readyCount := 0
    pendingTimer := none
    cache := []
    inFlight := []
    gen := 0
    revoked := [] }

/-- The three derived view states of App.tsx (loading, browsing, summary),
read off the render expression: loading while the deck is not ready,
otherwise browsing until activeIndex passes the deck, then summary. -/
inductive Phase where
  | loading
  | browsing
  | summary
deriving DecidableEq, Repr

/-- phase of the rendered view, from the conditional rendering of
App.tsx. -/
def phase (s : AppState) : Phase :=
  if !s.isDeckReady then Phase.loading
  else if isComplete s then Phase.summary
  else Phase.browsing

/-- Modelled from the spec: App.tsx inlines the image cache and exposes
only releasePool; the per-entry release(url) operation of the cache
contract has no counterpart under src/.  Following the words of the spec:
if the stored value is a locally-owned reference (not a bare remote
fallback), invalidate and free it; the operation is idempotent and safe on
an already-cleared cache.  Freeing revokes the object URL and drops the
entry, so a repeated call finds nothing to free. -/
def release (s : AppState) (url : String) : AppState :=
  match mapGet s.cache url with
  | none => s
  | some v =>
      if v.startsWith "blob:" then
        { s with
            revoked := s.revoked ++ [v]
            cache := s.cache.filter (fun p => p.1 ≠ url) }
      else s

/-! Frame and counting lemmas for the single transitions. -/

theorem launchJob_gen (g : Nat) (s : AppState) (c : Card) :
    (launchJob g s c).gen = s.gen := by
  by_cases h : jobHit s.cache c <;> by_cases hg : g = s.gen <;>
    simp [launchJob, h, hg]

theorem launchJob_cache (g : Nat) (s : AppState) (c : Card) :
    (launchJob g s c).cache = s.cache := by
  by_cases h : jobHit s.cache c <;> by_cases hg : g = s.gen <;>
    simp [launchJob, h, hg]

theorem launchJob_cats (g : Nat) (s : AppState) (c : Card) :
    (launchJob g s c).cats = s.cats := by
  by_cases h : jobHit s.cache c <;> by_cases hg : g = s.gen <;>
    simp [launchJob, h, hg]

theorem launchJob_isDeckReady (g : Nat) (s : AppState) (c : Card) :
    (launchJob g s c).isDeckReady = s.isDeckReady := by
  by_cases h : jobHit s.cache c <;> by_cases hg : g = s.gen <;>
    simp [launchJob, h, hg]

theorem launchJob_readyCount (g : Nat) (s : AppState) (c : Card) (hg : g = s.gen) :
    (launchJob g s c).readyCount
      = s.readyCount + (if jobHit s.cache c then 1 else 0) := by
  by_cases h : jobHit s.cache c <;> simp [launchJob, h, hg]

theorem launchJob_readyCount_le (g : Nat) (s : AppState) (c : Card) :
    s.readyCount ≤ (launchJob g s c).readyCount := by
  by_cases h : jobHit s.cache c <;> by_cases hg : g = s.gen <;>
    simp [launchJob, h, hg]

theorem finishJob_gen (g : Nat) (s : AppState) (c : Card) (res : FetchResult) :
    (finishJob g s c res).gen = s.gen := by
  by_cases hg : g = s.gen <;> cases res <;> simp [finishJob, hg]

theorem finishJob_cats (g : Nat) (s : AppState) (c : Card) (res : FetchResult) :
    (finishJob g s c res).cats = s.cats := by
  by_cases hg : g = s.gen <;> cases res <;> simp [finishJob, hg]

theorem finishJob_isDeckReady (g : Nat) (s : AppState) (c : Card) (res : FetchResult) :
    (finishJob g s c res).isDeckReady = s.isDeckReady := by
  by_cases hg : g = s.gen <;> cases res <;> simp [finishJob, hg]

theorem finishJob_readyCount_active (g : Nat) (s : AppState) (c : Card)
    (res : FetchResult) (hg : g = s.gen) :
    (finishJob g s c res).readyCount = s.readyCount + 1 := by
  cases res <;> simp [finishJob, hg]

theorem finishJob_readyCount_stale (g : Nat) (s : AppState) (c : Card)
    (res : FetchResult) (hg : g ≠ s.gen) :
    (finishJob g s c res).readyCount = s.readyCount := by
  cases res <;> simp [finishJob, hg]

theorem finishJob_cache_stale (g : Nat) (s : AppState) (c : Card)
    (res : FetchResult) (hg : g ≠ s.gen) :
    (finishJob g s c res).cache = s.cache := by
  cases res <;> simp [finishJob, hg]

theorem finishJob_readyCount_le (g : Nat) (s : AppState) (c : Card) (res : FetchResult) :
    s.readyCount ≤ (finishJob g s c res).readyCount := by
  by_cases hg : g = s.gen <;> cases res <;> simp [finishJob, hg]

theorem finishJob_cache_failure (g : Nat) (s : AppState) (c : Card) (hg : g = s.gen) :
    (finishJob g s c FetchResult.failure).cache = mapSet s.cache c.url c.url := by
  simp [finishJob, hg]

theorem finishJob_cache_success (g : Nat) (s : AppState) (c : Card) (u : String)
    (hg : g = s.gen) :
    (finishJob g s c (FetchResult.success u)).cache = mapSet s.cache c.url u := by
  simp [finishJob, hg]

theorem finishAll_gen (g : Nat) (s : AppState) : (finishAll g s).gen = s.gen := by
  by_cases hg : g = s.gen <;> simp [finishAll, hg]

theorem finishAll_readyCount (g : Nat) (s : AppState) :
    (finishAll g s).readyCount = s.readyCount := by
  by_cases hg : g = s.gen <;> simp [finishAll, hg]

theorem finishAll_active (g : Nat) (s : AppState) (hg : g = s.gen) :
    (finishAll g s).isDeckReady = true := by
  simp [finishAll, hg]

theorem finishAll_stale (g : Nat) (s : AppState) (hg : g ≠ s.gen) :
    finishAll g s = s := by
  simp [finishAll, hg]

theorem thresholdEffect_readyCount (s : AppState) :
    (thresholdEffect s).readyCount = s.readyCount := by
  simp only [thresholdEffect]
  split <;> rfl

theorem thresholdEffect_cats (s : AppState) :
    (thresholdEffect s).cats = s.cats := by
  simp only [thresholdEffect]
  split <;> rfl

/-! Lemmas about the fold over the whole pass. -/

theorem settleAll_gen (g : Nat) (s : AppState) (jobs : List (Card × FetchResult)) :
    (settleAll g s jobs).gen = s.gen := by
  induction jobs generalizing s with
  | nil => rfl
  | cons j t ih =>
      show (settleAll g (finishJob g s j.1 j.2) t).gen = s.gen
      rw [ih, finishJob_gen]

theorem settleAll_cats (g : Nat) (s : AppState) (jobs : List (Card × FetchResult)) :
    (settleAll g s jobs).cats = s.cats := by
  induction jobs generalizing s with
  | nil => rfl
  | cons j t ih =>
      show (settleAll g (finishJob g s j.1 j.2) t).cats = s.cats
      rw [ih, finishJob_cats]

theorem settleAll_isDeckReady (g : Nat) (s : AppState)
    (jobs : List (Card × FetchResult)) :
    (settleAll g s jobs).isDeckReady = s.isDeckReady := by
  induction jobs generalizing s with
  | nil => rfl
  | cons j t ih =>
      show (settleAll g (finishJob g s j.1 j.2) t).isDeckReady = s.isDeckReady
      rw [ih, finishJob_isDeckReady]

theorem settleAll_readyCount (g : Nat) (s : AppState)
    (jobs : List (Card × FetchResult)) (hg : g = s.gen) :
    (settleAll g s jobs).readyCount = s.readyCount + jobs.length := by
  induction jobs generalizing s with
  | nil => rfl
  | cons j t ih =>
      show (settleAll g (finishJob g s j.1 j.2) t).readyCount = _
      rw [ih _ (by rw [finishJob_gen]; exact hg),
        finishJob_readyCount_active _ _ _ _ hg]
      simp [List.length_cons]
      omega

theorem launchAll_gen (g : Nat) (s : AppState) (cards : List Card) :
    (launchAll g s cards).gen = s.gen := by
  induction cards generalizing s with
  | nil => rfl
  | cons c t ih =>
      show (launchAll g (launchJob g s c) t).gen = s.gen
      rw [ih, launchJob_gen]

theorem launchAll_cache (g : Nat) (s : AppState) (cards : List Card) :
    (launchAll g s cards).cache = s.cache := by
  induction cards generalizing s with
  | nil => rfl
  | cons c t ih =>
      show (launchAll g (launchJob g s c) t).cache = s.cache
      rw [ih, launchJob_cache]

theorem launchAll_cats (g : Nat) (s : AppState) (cards : List Card) :
    (launchAll g s cards).cats = s.cats := by
  induction cards generalizing s with
  | nil => rfl
  | cons c t ih =>
      show (launchAll g (launchJob g s c) t).cats = s.cats
      rw [ih, launchJob_cats]

theorem launchAll_isDeckReady (g : Nat) (s : AppState) (cards : List Card) :
    (launchAll g s cards).isDeckReady = s.isDeckReady := by
  induction cards generalizing s with
  | nil => rfl
  | cons c t ih =>
      show (launchAll g (launchJob g s c) t).isDeckReady = s.isDeckReady
      rw [ih, launchJob_isDeckReady]

theorem launchAll_readyCount (g : Nat) (s : AppState) (cards : List Card)
    (hg : g = s.gen) :
    (launchAll g s cards).readyCount
      = s.readyCount + (cards.filter (fun c => jobHit s.cache c)).length := by
  induction cards generalizing s with
  | nil => rfl
  | cons c t ih =>
      show (launchAll g (launchJob g s c) t).readyCount = _
      rw [ih _ (by rw [launchJob_gen]; exact hg), launchJob_cache,
        launchJob_readyCount _ _ _ hg]
      by_cases h : jobHit s.cache c
      · simp [List.filter, h]
        omega
      · simp [List.filter, h]

theorem length_filter_add_length_filter_not {α : Type} (l : List α) (p : α → Bool) :
    (l.filter p).length + (l.filter (fun a => !p a)).length = l.length := by
  induction l with
  | nil => simp
  | cons a t ih => by_cases h : p a = true <;> simp [List.filter, h] <;> omega

/-! Lemmas about the effect run. -/

theorem effectRun_gen (s : AppState) : (effectRun s).gen = s.gen + 1 := by
  by_cases h : s.cats.length > 0 <;> simp [effectRun, h, launchAll_gen]

theorem effectRun_cats (s : AppState) : (effectRun s).cats = s.cats := by
  by_cases h : s.cats.length > 0 <;> simp [effectRun, h, launchAll_cats]

theorem effectRun_cache (s : AppState) : (effectRun s).cache = s.cache := by
  by_cases h : s.cats.length > 0 <;> simp [effectRun, h, launchAll_cache]

theorem effectRun_readyCount (s : AppState) :
    (effectRun s).readyCount = (s.cats.filter (fun c => jobHit s.cache c)).length := by
  by_cases h : s.cats.length > 0
  · simp [effectRun, h, launchAll_readyCount]
  · simp [effectRun, h]
    simp at h
    simp [h]

theorem effectRun_isDeckReady_of_pos (s : AppState) (h : 0 < s.cats.length) :
    (effectRun s).isDeckReady = false := by
  simp [effectRun, h, launchAll_isDeckReady]

theorem mapGet_mapSet_self (m : List (String × String)) (k v : String) :
    mapGet (mapSet m k v) k = some v := by
  induction m with
  | nil => simp [mapSet, mapGet]
  | cons p rest ih =>
      by_cases h : p.1 = k <;> simp [mapSet, mapGet, h, ih]

theorem mapGet_filter_ne (m : List (String × String)) (k : String) :
    mapGet (m.filter (fun p => p.1 ≠ k)) k = none := by
  induction m with
  | nil => rfl
  | cons p rest ih =>
      simp only [decide_not] at ih ⊢
      by_cases h : p.1 = k <;> simp [List.filter, h, mapGet, ih]

/-! Lemmas about the spec-modelled per-entry release. -/

theorem release_none (s : AppState) (url : String)
    (h : mapGet s.cache url = none) : release s url = s := by
  simp [release, h]

theorem release_notblob (s : AppState) (url v : String)
    (hv : mapGet s.cache url = some v) (hb : v.startsWith "blob:" = false) :
    release s url = s := by
  simp [release, hv, hb]

theorem release_blob (s : AppState) (url v : String)
    (hv : mapGet s.cache url = some v) (hb : v.startsWith "blob:" = true) :
    release s url
      = { s with
            revoked := s.revoked ++ [v]
            cache := s.cache.filter (fun p => p.1 ≠ url) } := by
  simp [release, hv, hb]

/-! Claim theorems. -/

/-- C1: for every deck of length N >= 0, once every one of the N prefetch
jobs has settled (success or fallback) — the jobs that hit the cache
settle at launch, and the remaining pending jobs each settle exactly once,
in any order — isDeckReady is true and readyCount equals N; in the
degenerate case N = 0 the effect run itself marks the deck ready at once,
with readyCount 0 and no settlements required. -/
theorem claim_c1 :
    (∀ (s0 : AppState) (jobs : List (Card × FetchResult)),
        (jobs.map Prod.fst).Perm (pendingCards s0.cache s0.cats) →
        (finishAll (s0.gen + 1) (settleAll (s0.gen + 1) (effectRun s0) jobs)).isDeckReady
            = true
          ∧ (finishAll (s0.gen + 1) (settleAll (s0.gen + 1) (effectRun s0) jobs)).readyCount
              = s0.cats.length)
    ∧ (∀ s0 : AppState, s0.cats = [] →
        (effectRun s0).isDeckReady = true ∧ (effectRun s0).readyCount = 0) := by
  constructor
  · intro s0 jobs hperm
    have hg : s0.gen + 1 = (settleAll (s0.gen + 1) (effectRun s0) jobs).gen := by
      rw [settleAll_gen, effectRun_gen]
    refine ⟨finishAll_active _ _ hg, ?_⟩
    rw [finishAll_readyCount,
      settleAll_readyCount _ _ _ (effectRun_gen s0).symm, effectRun_readyCount]
    have hlen : jobs.length = (List.filter (fun c => !jobHit s0.cache c) s0.cats).length := by
      have h := hperm.length_eq
      simpa [pendingCards] using h
    have hsum := length_filter_add_length_filter_not s0.cats (fun c => jobHit s0.cache c)
    omega
  · intro s0 h
    constructor <;> simp [effectRun, h]

/-- Witness for C1 at a concrete two-card deck whose two jobs both settle
with a failure, and at the concrete empty deck. -/
theorem claim_c1_witness :
    ((finishAll ((initState (generateDeck "w" 2)).gen + 1)
        (settleAll ((initState (generateDeck "w" 2)).gen + 1)
          (effectRun (initState (generateDeck "w" 2)))
          ((generateDeck "w" 2).map (fun c => (c, FetchResult.failure))))).isDeckReady
          = true
      ∧ (finishAll ((initState (generateDeck "w" 2)).gen + 1)
          (settleAll ((initState (generateDeck "w" 2)).gen + 1)
            (effectRun (initState (generateDeck "w" 2)))
            ((generateDeck "w" 2).map (fun c => (c, FetchResult.failure))))).readyCount
          = (initState (generateDeck "w" 2)).cats.length)
    ∧ ((effectRun (initState [])).isDeckReady = true
        ∧ (effectRun (initState [])).readyCount = 0) :=
  ⟨claim_c1.1 (initState (generateDeck "w" 2))
      ((generateDeck "w" 2).map (fun c => (c, FetchResult.failure))) (by decide),
   claim_c1.2 (initState []) rfl⟩

/-- C2: for every non-empty deck of length N, isDeckReady becomes true as
soon as readyCount reaches min(INITIAL_READY_COUNT, N) with
INITIAL_READY_COUNT = 3 (first conjunct: running the threshold effect in
any such state marks the deck ready); and when N > 3, settling any three
pending jobs of a fresh pass already yields readyCount = 3, so the
threshold effect marks the deck ready while readyCount is still strictly
below N (second conjunct). -/
theorem claim_c2 :
    (∀ s : AppState, 0 < s.cats.length →
        min INITIAL_READY_COUNT s.cats.length ≤ s.readyCount →
        (thresholdEffect s).isDeckReady = true)
    ∧ (∀ (s0 : AppState) (jobs : List (Card × FetchResult)),
        pendingCards s0.cache s0.cats = s0.cats →
        (jobs.map Prod.fst).Subperm s0.cats →
        jobs.length = INITIAL_READY_COUNT →
        INITIAL_READY_COUNT < s0.cats.length →
        (thresholdEffect (settleAll (s0.gen + 1) (effectRun s0) jobs)).isDeckReady = true
          ∧ (thresholdEffect (settleAll (s0.gen + 1) (effectRun s0) jobs)).readyCount
              = INITIAL_READY_COUNT
          ∧ (thresholdEffect (settleAll (s0.gen + 1) (effectRun s0) jobs)).readyCount
              < s0.cats.length) := by
  constructor
  · intro s hpos hcnt
    have hthr : 0 < min INITIAL_READY_COUNT s.cats.length :=
      lt_min (by norm_num [INITIAL_READY_COUNT]) hpos
    by_cases hd : s.isDeckReady = true
    · simp only [thresholdEffect]
      split
      · rfl
      · exact hd
    · simp only [Bool.not_eq_true] at hd
      simp [thresholdEffect, hd, hthr, hcnt]
  · intro s0 jobs hpend hsub hlen3 hN
    have hlenpend :
        (List.filter (fun c => !jobHit s0.cache c) s0.cats).length = s0.cats.length := by
      have h := congrArg List.length hpend
      simpa [pendingCards] using h
    have hsum := length_filter_add_length_filter_not s0.cats (fun c => jobHit s0.cache c)
    have hhits : (List.filter (fun c => jobHit s0.cache c) s0.cats).length = 0 := by
      omega
    have hcount :
        (settleAll (s0.gen + 1) (effectRun s0) jobs).readyCount = INITIAL_READY_COUNT := by
      rw [settleAll_readyCount _ _ _ (effectRun_gen s0).symm, effectRun_readyCount,
        hhits, hlen3]
      exact Nat.zero_add _
    have hrdy : (settleAll (s0.gen + 1) (effectRun s0) jobs).isDeckReady = false := by
      rw [settleAll_isDeckReady, effectRun_isDeckReady_of_pos]
      omega
    have hcats : (settleAll (s0.gen + 1) (effectRun s0) jobs).cats = s0.cats := by
      rw [settleAll_cats, effectRun_cats]
    have hmin : min INITIAL_READY_COUNT s0.cats.length = INITIAL_READY_COUNT :=
      Nat.min_eq_left (Nat.le_of_lt hN)
    have hpos : 0 < s0.cats.length := lt_of_le_of_lt (Nat.zero_le _) hN
    refine ⟨?_, ?_, ?_⟩
    · simp [thresholdEffect, hcats, hcount, hrdy, hmin, INITIAL_READY_COUNT]
      simp [hpos]
    · rw [thresholdEffect_readyCount, hcount]
    · rw [thresholdEffect_readyCount, hcount]
      exact hN

/-- Witness for C2: a state with a four-card deck and readyCount 3 passes
the first conjunct, and a fresh four-card pass with exactly three failed
settlements passes the second conjunct. -/
theorem claim_c2_witness :
    (thresholdEffect
        { initState (generateDeck "w" 4) with readyCount := 3 }).isDeckReady = true
    ∧ ((thresholdEffect
          (settleAll ((initState (generateDeck "w" 4)).gen + 1)
            (effectRun (initState (generateDeck "w" 4)))
            (((generateDeck "w" 4).take 3).map
              (fun c => (c, FetchResult.failure))))).isDeckReady = true
        ∧ (thresholdEffect
            (settleAll ((initState (generateDeck "w" 4)).gen + 1)
              (effectRun (initState (generateDeck "w" 4)))
              (((generateDeck "w" 4).take 3).map
                (fun c => (c, FetchResult.failure))))).readyCount = INITIAL_READY_COUNT
        ∧ (thresholdEffect
            (settleAll ((initState (generateDeck "w" 4)).gen + 1)
              (effectRun (initState (generateDeck "w" 4)))
              (((generateDeck "w" 4).take 3).map
                (fun c => (c, FetchResult.failure))))).readyCount
            < (initState (generateDeck "w" 4)).cats.length) :=
  ⟨claim_c2.1 { initState (generateDeck "w" 4) with readyCount := 3 }
      (by decide) (by decide),
   claim_c2.2 (initState (generateDeck "w" 4))
      (((generateDeck "w" 4).take 3).map (fun c => (c, FetchResult.failure)))
      (by decide) (by decide) (by decide) (by decide)⟩

/-- C4: after a reset replaces the deck and the new prefetch pass starts
(generation bump), every late settlement of a superseded pass (one that
captured any generation at most the pre-reset generation) is a no-op on
the new readiness counter and on the new cache, and a late Promise.all
continuation of such a pass changes nothing at all. -/
theorem claim_c4 (s0 : AppState) (deckId : String) (c : Card) (res : FetchResult)
    (g : Nat) (hg : g ≤ s0.gen) :
    (finishJob g (effectRun (resetDeck deckId s0)) c res).readyCount
        = (effectRun (resetDeck deckId s0)).readyCount
      ∧ (finishJob g (effectRun (resetDeck deckId s0)) c res).cache
        = (effectRun (resetDeck deckId s0)).cache
      ∧ finishAll g (effectRun (resetDeck deckId s0)) = effectRun (resetDeck deckId s0) := by
  have hresetgen : (resetDeck deckId s0).gen = s0.gen := by
    simp [resetDeck, releasePool]
  have hgen : (effectRun (resetDeck deckId s0)).gen = s0.gen + 1 := by
    rw [effectRun_gen, hresetgen]
  have hne : g ≠ (effectRun (resetDeck deckId s0)).gen := by
    rw [hgen]
    omega
  exact ⟨finishJob_readyCount_stale _ _ _ _ hne,
    finishJob_cache_stale _ _ _ _ hne, finishAll_stale _ _ hne⟩

/-- Witness for C4 at a concrete state: a settlement of the pass of
generation 0, arriving after a reset installed a new deck and generation 1
started, changes neither readyCount nor the cache. -/
theorem claim_c4_witness :
    (finishJob 0 (effectRun (resetDeck "r" (initState (generateDeck "w" 1))))
        { id := "old-0", url := "https://example.org/old" }
        (FetchResult.success "blob:late")).readyCount
      = (effectRun (resetDeck "r" (initState (generateDeck "w" 1)))).readyCount
    ∧ (finishJob 0 (effectRun (resetDeck "r" (initState (generateDeck "w" 1))))
        { id := "old-0", url := "https://example.org/old" }
        (FetchResult.success "blob:late")).cache
      = (effectRun (resetDeck "r" (initState (generateDeck "w" 1)))).cache
    ∧ finishAll 0 (effectRun (resetDeck "r" (initState (generateDeck "w" 1))))
      = effectRun (resetDeck "r" (initState (generateDeck "w" 1))) :=
  claim_c4 (initState (generateDeck "w" 1)) "r"
    { id := "old-0", url := "https://example.org/old" }
    (FetchResult.success "blob:late") 0 (by decide)

/-- C5: within a single prefetch pass readyCount only increases (every
transition of the pass is monotone in readyCount, and the Promise.all
continuation and the threshold effect leave it unchanged); each settlement
of the active pass adds exactly one, on top of the one increment per
cache-hit job at launch; and as long as each pending job settles at most
once, readyCount never exceeds the deck length. -/
theorem claim_c5 :
    (∀ (g : Nat) (s : AppState) (c : Card), s.readyCount ≤ (launchJob g s c).readyCount)
    ∧ (∀ (g : Nat) (s : AppState) (c : Card) (res : FetchResult),
        s.readyCount ≤ (finishJob g s c res).readyCount)
    ∧ (∀ (g : Nat) (s : AppState), (finishAll g s).readyCount = s.readyCount)
    ∧ (∀ s : AppState, (thresholdEffect s).readyCount = s.readyCount)
    ∧ (∀ (s0 : AppState) (jobs : List (Card × FetchResult)),
        (settleAll (s0.gen + 1) (effectRun s0) jobs).readyCount
          = (s0.cats.filter (fun c => jobHit s0.cache c)).length + jobs.length)
    ∧ (∀ (s0 : AppState) (jobs : List (Card × FetchResult)),
        (jobs.map Prod.fst).Subperm (pendingCards s0.cache s0.cats) →
        (settleAll (s0.gen + 1) (effectRun s0) jobs).readyCount ≤ s0.cats.length) := by
  refine ⟨launchJob_readyCount_le, finishJob_readyCount_le, finishAll_readyCount,
    thresholdEffect_readyCount, ?_, ?_⟩
  · intro s0 jobs
    rw [settleAll_readyCount _ _ _ (effectRun_gen s0).symm, effectRun_readyCount]
  · intro s0 jobs hsub
    rw [settleAll_readyCount _ _ _ (effectRun_gen s0).symm, effectRun_readyCount]
    have hle := hsub.length_le
    rw [List.length_map] at hle
    have hsum := length_filter_add_length_filter_not s0.cats (fun c => jobHit s0.cache c)
    simp only [pendingCards] at hle
    omega

/-- Witness for C5: the bound conjunct applied to a concrete two-card pass
in which only the first job has settled. -/
theorem claim_c5_witness :
    (settleAll ((initState (generateDeck "w" 2)).gen + 1)
        (effectRun (initState (generateDeck "w" 2)))
        (((generateDeck "w" 2).take 1).map (fun c => (c, FetchResult.failure)))).readyCount
      ≤ (initState (generateDeck "w" 2)).cats.length :=
  claim_c5.2.2.2.2.2 (initState (generateDeck "w" 2))
    (((generateDeck "w" 2).take 1).map (fun c => (c, FetchResult.failure)))
    (by decide)

/-- C10: while isDeckReady is false every classify call is a no-op — the
whole state is unchanged, so in particular no pending direction is set, no
timer is armed, and neither activeIndex nor the liked list moves — even
when a current card exists. -/
theorem claim_c10 (s : AppState) (d : Direction) (h : s.isDeckReady = false) :
    handleChoice d s = s := by
  simp only [handleChoice]
  cases currentCat s with
  | none => rfl
  | some c => simp [h]

/-- Witness for C10 at a concrete not-yet-ready state that does have a
current card. -/
theorem claim_c10_witness :
    (initState (generateDeck "w" 3)).isDeckReady = false
      ∧ (currentCat (initState (generateDeck "w" 3))).isSome = true
      ∧ handleChoice Direction.left (initState (generateDeck "w" 3))
          = initState (generateDeck "w" 3) :=
  ⟨rfl, by decide, claim_c10 (initState (generateDeck "w" 3)) Direction.left rfl⟩

/-- C3: for every url whose fetch fails, the settlement of the active pass
stores the url itself as the cache value and counts the item as settled
(readyCount + 1); the failure is absorbed by the catch branch, so the
transition is total and no error leaves the pipeline.  Concretely, for a
deck of 3 cards whose fetches all fail, readyCount reaches 3, isDeckReady
is true, and each card maps to its own url in the cache. -/
theorem claim_c3 :
    (∀ (g : Nat) (s : AppState) (c : Card), g = s.gen →
        (finishJob g s c FetchResult.failure).cache = mapSet s.cache c.url c.url
          ∧ mapGet (finishJob g s c FetchResult.failure).cache c.url = some c.url
          ∧ (finishJob g s c FetchResult.failure).readyCount = s.readyCount + 1)
    ∧ (let deck := generateDeck "deck" 3
       let sf := finishAll ((initState deck).gen + 1)
           (settleAll ((initState deck).gen + 1) (effectRun (initState deck))
             (deck.map (fun c => (c, FetchResult.failure))))
       sf.readyCount = 3 ∧ sf.isDeckReady = true
         ∧ ∀ c ∈ deck, mapGet sf.cache c.url = some c.url) := by
  constructor
  · intro g s c hg
    refine ⟨finishJob_cache_failure _ _ _ hg, ?_, finishJob_readyCount_active _ _ _ _ hg⟩
    rw [finishJob_cache_failure _ _ _ hg]
    exact mapGet_mapSet_self _ _ _
  · decide

/-- Witness for C3: the general failure-settlement conjunct applied to a
concrete card in a concrete fresh state. -/
theorem claim_c3_witness :
    (finishJob 0 (initState (generateDeck "w" 1))
        { id := "x", url := "https://example.org/x" } FetchResult.failure).cache
      = mapSet (initState (generateDeck "w" 1)).cache
          "https://example.org/x" "https://example.org/x"
    ∧ mapGet (finishJob 0 (initState (generateDeck "w" 1))
        { id := "x", url := "https://example.org/x" } FetchResult.failure).cache
          "https://example.org/x"
      = some "https://example.org/x"
    ∧ (finishJob 0 (initState (generateDeck "w" 1))
        { id := "x", url := "https://example.org/x" } FetchResult.failure).readyCount
      = (initState (generateDeck "w" 1)).readyCount + 1 :=
  claim_c3.1 0 (initState (generateDeck "w" 1))
    { id := "x", url := "https://example.org/x" } rfl

/-- C6: an accepted classification commits exactly once.  When a current
card exists, no classification is animating and the deck is ready,
handleChoice arms the timer and the timer callback advances activeIndex by
exactly one, appends the classified card to the liked list exactly for an
accept, and clears the pending direction, the animating flag and the
timer in the same atomic transition; a classify call while a prior one is
pending (isAnimating) leaves the whole state unchanged, and an accepted
classify call itself changes neither activeIndex nor the liked list before
the commit.  Concretely, accepting card 1 of a 3-card ready deck yields
activeIndex 1 and a liked list holding exactly that card. -/
theorem claim_c6 :
    (∀ (s : AppState) (d : Direction) (c : Card),
        currentCat s = some c → s.isAnimating = false → s.isDeckReady = true →
        (fireTimer (handleChoice d s)).activeIndex = s.activeIndex + 1
          ∧ (fireTimer (handleChoice d s)).liked
              = (if d = Direction.right then s.liked ++ [c] else s.liked)
          ∧ (fireTimer (handleChoice d s)).swipeDirection = none
          ∧ (fireTimer (handleChoice d s)).isAnimating = false
          ∧ (fireTimer (handleChoice d s)).pendingTimer = none)
    ∧ (∀ (s : AppState) (d : Direction), s.isAnimating = true → handleChoice d s = s)
    ∧ (∀ (s : AppState) (d : Direction) (c : Card),
        currentCat s = some c → s.isAnimating = false → s.isDeckReady = true →
        (handleChoice d s).isAnimating = true
          ∧ (handleChoice d s).activeIndex = s.activeIndex
          ∧ (handleChoice d s).liked = s.liked)
    ∧ ((fireTimer (handleChoice Direction.right
          { initState (generateDeck "w" 3) with isDeckReady := true })).activeIndex = 1
        ∧ (fireTimer (handleChoice Direction.right
            { initState (generateDeck "w" 3) with isDeckReady := true })).liked
          = [{ id := "w-0"
               url := "https://cataas.com/cat?width=560&height=720&format=jpg&deck=w-0" }]) := by
  have hmain : ∀ (s : AppState) (d : Direction) (c : Card),
      currentCat s = some c → s.isAnimating = false → s.isDeckReady = true →
      handleChoice d s
        = { s with
              swipeDirection := some d
              isAnimating := true
              pendingTimer := some (d, c) } := by
    intro s d c hc ha hd
    simp [handleChoice, hc, ha, hd]
  refine ⟨?_, ?_, ?_, ?_⟩
  · intro s d c hc ha hd
    rw [hmain s d c hc ha hd]
    simp [fireTimer]
  · intro s d h
    simp only [handleChoice]
    cases currentCat s with
    | none => rfl
    | some c => simp [h]
  · intro s d c hc ha hd
    rw [hmain s d c hc ha hd]
    exact ⟨rfl, rfl, rfl⟩
  · decide

/-- Witness for C6: the commit conjunct applied to the concrete ready
3-card deck at its first card. -/
theorem claim_c6_witness :
    (fireTimer (handleChoice Direction.right
        { initState (generateDeck "w" 3) with isDeckReady := true })).activeIndex
      = { initState (generateDeck "w" 3) with isDeckReady := true }.activeIndex + 1
    ∧ (fireTimer (handleChoice Direction.right
        { initState (generateDeck "w" 3) with isDeckReady := true })).liked
      = (if Direction.right = Direction.right then
          { initState (generateDeck "w" 3) with isDeckReady := true }.liked
            ++ [{ id := "w-0"
                  url := "https://cataas.com/cat?width=560&height=720&format=jpg&deck=w-0" }]
         else { initState (generateDeck "w" 3) with isDeckReady := true }.liked)
    ∧ (fireTimer (handleChoice Direction.right
        { initState (generateDeck "w" 3) with isDeckReady := true })).swipeDirection = none
    ∧ (fireTimer (handleChoice Direction.right
        { initState (generateDeck "w" 3) with isDeckReady := true })).isAnimating = false
    ∧ (fireTimer (handleChoice Direction.right
        { initState (generateDeck "w" 3) with isDeckReady := true })).pendingTimer = none :=
  claim_c6.1 { initState (generateDeck "w" 3) with isDeckReady := true }
    Direction.right
    { id := "w-0", url := "https://cataas.com/cat?width=560&height=720&format=jpg&deck=w-0" }
    (by decide) rfl rfl

/-- C7: resetDeck is a total function on states, and afterwards the
pending classification timer is cleared, the cache map and the in-flight
set are empty, a freshly generated deck of TOTAL_CATS = 12 cards is
installed, activeIndex is 0, the liked list is empty, readyCount is 0, the
ready flag is down and the rendered phase is loading. -/
theorem claim_c7 (s : AppState) (deckId : String) :
    (resetDeck deckId s).pendingTimer = none
      ∧ (resetDeck deckId s).cache = []
      ∧ (resetDeck deckId s).inFlight = []
      ∧ (resetDeck deckId s).cats = generateDeck deckId TOTAL_CATS
      ∧ (resetDeck deckId s).cats.length = 12
      ∧ (resetDeck deckId s).activeIndex = 0
      ∧ (resetDeck deckId s).liked = []
      ∧ (resetDeck deckId s).readyCount = 0
      ∧ (resetDeck deckId s).isDeckReady = false
      ∧ phase (resetDeck deckId s) = Phase.loading := by
  have hready : (resetDeck deckId s).isDeckReady = false := rfl
  refine ⟨rfl, rfl, rfl, rfl, ?_, rfl, rfl, rfl, hready, ?_⟩
  · simp [resetDeck, generateDeck, TOTAL_CATS]
  · simp [phase, hready]

/-- C8: releasePool followed by any number of further releasePool calls
leaves the cache map and the in-flight set empty; the transition is a
total function, so no call can throw; each call appends to the revocation
log exactly the cached values that are object URLs (values starting with
blob:), in cache order, so a remote fallback value is never revoked; and
a repeated call is the identity on the already-released state. -/
theorem claim_c8 (s : AppState) (n : Nat) :
    (Nat.iterate releasePool (n + 1) s).cache = []
      ∧ (Nat.iterate releasePool (n + 1) s).inFlight = []
      ∧ (releasePool s).revoked
          = s.revoked ++ (s.cache.map Prod.snd).filter (fun v => v.startsWith "blob:")
      ∧ (∀ v, v ∈ (releasePool s).revoked → v ∈ s.revoked ∨ v.startsWith "blob:" = true)
      ∧ releasePool (releasePool s) = releasePool s := by
  have hid : releasePool (releasePool s) = releasePool s := by
    simp [releasePool]
  have hiter : Nat.iterate releasePool (n + 1) s = releasePool s := by
    rw [Function.iterate_succ_apply]
    exact Function.iterate_fixed hid n
  refine ⟨by rw [hiter]; rfl, by rw [hiter]; rfl, rfl, ?_, hid⟩
  intro v hv
  simp only [releasePool, List.mem_append, List.mem_filter] at hv
  rcases hv with h | ⟨_, h⟩
  · exact Or.inl h
  · exact Or.inr h

/-- Witness for C8 at a concrete state holding one object-URL entry, one
remote-fallback entry and a non-empty in-flight set, iterated twice. -/
theorem claim_c8_witness :
    (Nat.iterate releasePool 2
        { initState [] with
            cache := [("u1", "blob:abc"), ("u2", "u2")]
            inFlight := ["u3"] }).cache = []
      ∧ (Nat.iterate releasePool 2
          { initState [] with
              cache := [("u1", "blob:abc"), ("u2", "u2")]
              inFlight := ["u3"] }).inFlight = []
      ∧ (releasePool
          { initState [] with
              cache := [("u1", "blob:abc"), ("u2", "u2")]
              inFlight := ["u3"] }).revoked
        = ({ initState [] with
              cache := [("u1", "blob:abc"), ("u2", "u2")]
              inFlight := ["u3"] } : AppState).revoked
            ++ ((([("u1", "blob:abc"), ("u2", "u2")] : List (String × String)).map
                  Prod.snd).filter (fun v => v.startsWith "blob:"))
      ∧ (∀ v, v ∈ (releasePool
            { initState [] with
               cache := [("u1", "blob:abc"), ("u2", "u2")]
               inFlight := ["u3"] }).revoked →
          v ∈ ({ initState [] with
                  cache := [("u1", "blob:abc"), ("u2", "u2")]
                  inFlight := ["u3"] } : AppState).revoked
            ∨ v.startsWith "blob:" = true)
      ∧ releasePool (releasePool
          { initState [] with
              cache := [("u1", "blob:abc"), ("u2", "u2")]
              inFlight := ["u3"] })
        = releasePool
            { initState [] with
                cache := [("u1", "blob:abc"), ("u2", "u2")]
                inFlight := ["u3"] } :=
  claim_c8
    { initState [] with
        cache := [("u1", "blob:abc"), ("u2", "u2")]
        inFlight := ["u3"] } 1

/-- C9: the per-entry release operation (modelled from the spec, since
App.tsx exposes only releasePool) frees the stored value exactly when it
is a locally-owned object-URL reference: on a blob: value it revokes that
value and invalidates the entry, on a bare remote fallback it changes
nothing, on an absent key it changes nothing, it is idempotent, and it is
safe on an already-cleared cache. -/
theorem claim_c9 (s : AppState) (url : String) :
    (∀ v, mapGet s.cache url = some v → v.startsWith "blob:" = true →
        (release s url).revoked = s.revoked ++ [v]
          ∧ mapGet (release s url).cache url = none)
      ∧ (∀ v, mapGet s.cache url = some v → v.startsWith "blob:" = false →
          release s url = s)
      ∧ (mapGet s.cache url = none → release s url = s)
      ∧ release (release s url) url = release s url
      ∧ (s.cache = [] → release s url = s) := by
  refine ⟨?_, release_notblob s url, release_none s url, ?_, ?_⟩
  · intro v hv hb
    rw [release_blob s url v hv hb]
    exact ⟨rfl, mapGet_filter_ne _ _⟩
  · cases hv : mapGet s.cache url with
    | none => simp only [release_none s url hv]
    | some v =>
        by_cases hb : v.startsWith "blob:" = true
        · have h1 : mapGet (release s url).cache url = none := by
            rw [release_blob s url v hv hb]
            exact mapGet_filter_ne _ _
          exact release_none _ _ h1
        · simp only [release_notblob s url v hv (by simpa using hb)]
  · intro h
    apply release_none
    rw [h]
    rfl

/-- Witness for C9 at a concrete cache holding a blob-valued entry under
the released key and a remote fallback under another key. -/
theorem claim_c9_witness :
    (∀ v, mapGet ({ initState [] with
          cache := [("u", "blob:abc"), ("r", "r")] } : AppState).cache "u" = some v →
        v.startsWith "blob:" = true →
        (release { initState [] with cache := [("u", "blob:abc"), ("r", "r")] } "u").revoked
            = ({ initState [] with
                  cache := [("u", "blob:abc"), ("r", "r")] } : AppState).revoked ++ [v]
          ∧ mapGet (release { initState [] with
              cache := [("u", "blob:abc"), ("r", "r")] } "u").cache "u" = none)
      ∧ (∀ v, mapGet ({ initState [] with
            cache := [("u", "blob:abc"), ("r", "r")] } : AppState).cache "u" = some v →
          v.startsWith "blob:" = false →
          release { initState [] with cache := [("u", "blob:abc"), ("r", "r")] } "u"
            = { initState [] with cache := [("u", "blob:abc"), ("r", "r")] })
      ∧ (mapGet ({ initState [] with
            cache := [("u", "blob:abc"), ("r", "r")] } : AppState).cache "u" = none →
          release { initState [] with cache := [("u", "blob:abc"), ("r", "r")] } "u"
            = { initState [] with cache := [("u", "blob:abc"), ("r", "r")] })
      ∧ release (release { initState [] with
            cache := [("u", "blob:abc"), ("r", "r")] } "u") "u"
          = release { initState [] with cache := [("u", "blob:abc"), ("r", "r")] } "u"
      ∧ (({ initState [] with
            cache := [("u", "blob:abc"), ("r", "r")] } : AppState).cache = [] →
          release { initState [] with cache := [("u", "blob:abc"), ("r", "r")] } "u"
            = { initState [] with cache := [("u", "blob:abc"), ("r", "r")] }) :=
  claim_c9 { initState [] with cache := [("u", "blob:abc"), ("r", "r")] } "u"

end Paws
